import Mathlib

/-!
Verification development for the maya-tools repository: a shallow embedding of
the helper layer over the host 3D application scene graph (node resolution,
filtered DAG walking, bulk visibility setting, subtree duplication, parent
insertion, and UV-set maintenance), together with theorems settling the
frozen claims about that code.

Host-application primitives (node storage, iterators, plugs, modifiers) are
modelled explicitly as pure state transformers; every wrapper function is
translated line by line from the Python source.
-/

/-! ### Model of src/om2utils/dg/dg_utils.py -/

/-- Python-level exceptions that the resolver helpers can surface:
a ValueError raised explicitly, or an AttributeError raised when a method
such as hasFn is called on a value that does not define it. -/
inductive PyErr where
  | valueError (msg : String)
  | attributeError (msg : String)
deriving DecidableEq, Repr

/-- Model of the loosely typed arguments accepted by get_fullpath: a DAG-path
handle, a dependency-node handle (MObject), or a foreign Python value that is
neither.  Each constructor carries the host-reported facts the code branches
on: whether hasFn(kDagNode) and hasFn(kDependencyNode) hold, the DAG full
path the host would report, and the dependency-graph name. -/
inductive MayaRef where
  | dagPath (isDagNode : Bool) (fullPathName : String)
  | mobject (isDagNode : Bool) (isDependencyNode : Bool) (dagFullPathName : String) (dgName : String)
  | foreignWithHasFn (isDependencyNode : Bool) (dgName : String) (typeName : String)
  | foreignNoHasFn (typeName : String)
deriving DecidableEq, Repr

/-- Embedding of dg_utils.get_fullpath.  The Python function returns a string
on the taken branches and implicitly returns None when it falls off the end,
so the result type is Except PyErr (Option String): ok (some s) is a returned
string, ok none is the implicit None, error is a raised exception.  The
branch structure mirrors the if / elif isinstance chain of the source: an
MObject that is not DAG capable falls through BOTH inner tests (the
hasFn(kDependencyNode) elif is unreachable for MObject inputs because the
isinstance(mobj, om2.MObject) elif already matched), so the function returns
None for such handles. -/
def get_fullpath : MayaRef → Except PyErr (Option String)
  | .dagPath isDagNode fullPathName =>
      if isDagNode then .ok (some fullPathName) else .ok none
  | .mobject isDagNode _ dagFullPathName _ =>
      if isDagNode then .ok (some dagFullPathName) else .ok none
  | .foreignWithHasFn isDependencyNode dgName typeName =>
      if isDependencyNode then .ok (some dgName)
      else .error (.valueError ("Provided object is invalid, object type is " ++ typeName))
  | .foreignNoHasFn typeName =>
      .error (.attributeError (typeName ++ " object has no attribute hasFn"))

/-- Split a character list at every occurrence of the separator (the model
of Python str.split on a one-character separator, by structural recursion so
that concrete instances evaluate). -/
def splitOnChar (c : Char) : List Char → List (List Char)
  | [] => [[]]
  | x :: xs =>
    match splitOnChar c xs with
    | [] => [[]]
    | h :: t => if x == c then [] :: h :: t else (x :: h) :: t

/-- Split a string at every occurrence of the separator character. -/
def strSplitOnChar (c : Char) (s : String) : List String :=
  (splitOnChar c s.toList).map (fun l => String.mk l)

/-- Model of om2.MNamespace.stripNamespaceFromName: removes the namespace
prefix (everything up to the last colon) from every path component. -/
def stripNamespaceFromName (s : String) : String :=
  String.intercalate "|" ((strSplitOnChar '|' s).map (fun c => (strSplitOnChar ':' c).getLastD c))

/-- Embedding of the basestring branch of dg_utils.get_shortname: strip the
namespaces, then take the last path component. -/
def get_shortname_of_str (fullpath : String) : String :=
  (strSplitOnChar '|' (stripNamespaceFromName fullpath)).getLastD ""

/-! ### Model of src/om2utils/dg/dg_manip.py -/

/-- A node as seen by the bulk visibility setter: the node part of the plug
name reported by MPlug.name() (plug names are node.attribute), the current
value of its boolean visibility plug, and whether the plug is locked or
connected (in which case MPlug.setBool raises RuntimeError). -/
structure VisNode where
  name : String
  visibility : Bool
  locked : Bool
deriving DecidableEq, Repr

/-- The full plug name reported by MPlug.name() for the visibility plug. -/
def plugName (n : VisNode) : String := n.name ++ ".visibility"

/-- Model of MPlug.setBool: raises RuntimeError when the plug cannot be
changed (locked or connected), otherwise stores the value. -/
def MPlug_setBool (n : VisNode) (v : Bool) : Except String VisNode :=
  if n.locked then .error "setBool failed, plug is locked or connected"
  else .ok { n with visibility := v }

/-- The short node name computed inside the loop of _set_visibility:
get_shortname applied to plug.name().split('.')[0]. -/
def node_short_name (n : VisNode) : String :=
  get_shortname_of_str ((strSplitOnChar '.' (plugName n)).headD "")

/-- The error message logged by _set_visibility when a plug cannot be set,
mirroring the format string of the source: the last path component of the
plug name and the underlying reason. -/
def vis_err_log (n : VisNode) (err : String) : String :=
  "Could not set " ++ ((strSplitOnChar '|' (plugName n)).getLastD "") ++ " Reason: " ++ err

/-- The outcome of the batch visibility call: the per-node states after the
loop, the error-level log lines, and the summary entries (choice, node name)
accumulated in msg_ and printed at the end. -/
structure VisResult where
  nodes : List VisNode
  errLogs : List String
  summary : List (Bool × String)
deriving DecidableEq, Repr

/-- Embedding of dg_manip._set_visibility.  For every handle, the short name
is computed, choice is membership of that short name in show_nodes (None and
the empty list give the empty set), and MPlug.setBool is attempted; a
RuntimeError is caught and logged, leaving the node unchanged, and the loop
continues with the remaining handles.  The function is total: the per-item
try/except keeps any setBool failure from escaping the call. -/
def _set_visibility : List VisNode → Option (List String) → VisResult
  | [], _ => ⟨[], [], []⟩
  | n :: rest, show_nodes =>
      let nodes_to_show := show_nodes.getD []
      let node_sn := node_short_name n
      let choice := nodes_to_show.contains node_sn
      let step : VisNode × List String :=
        match MPlug_setBool n choice with
        | .ok n2 => (n2, [])
        | .error err => (n, [vis_err_log n err])
      let tail := _set_visibility rest show_nodes
      ⟨step.1 :: tail.nodes, step.2 ++ tail.errLogs, (choice, n.name) :: tail.summary⟩

/-- Embedding of dg_manip.set_visibility_by_shortname, which forwards
directly to _set_visibility. -/
def set_visibility_by_shortname (mobjs : List VisNode) (show_nodes : Option (List String)) :
    VisResult :=
  _set_visibility mobjs show_nodes

/-! ### Model of src/om2utils/dag/dag_iter.py (the IDag walker) -/

/-- Rose forests in first-child / next-sibling form: a scene subtree is a
node with an id, its forest of children and its forest of right siblings.
This encodes the host DAG shape the iterator walks over. -/
inductive DagForest where
  | nil : DagForest
  | node (id : Nat) (children : DagForest) (siblings : DagForest) : DagForest
deriving DecidableEq, Repr

/-- Depth-first preorder enumeration of a forest with depths, starting at
depth d: this is the visit order of the host iterator in kDepthFirst mode,
paired with the value its depth() query reports (the traversal root is at
depth 0). -/
def dfsEnum : DagForest → Nat → List (Nat × Nat)
  | .nil, _ => []
  | .node i cs sib, d => (i, d) :: (dfsEnum cs (d + 1) ++ dfsEnum sib d)

/-- The node ids found at exactly depth d of a forest, in left-to-right
order. -/
def levelIds : DagForest → Nat → List Nat
  | .nil, _ => []
  | .node i _ sib, 0 => i :: levelIds sib 0
  | .node _ cs sib, d + 1 => levelIds cs d ++ levelIds sib (d + 1)

/-- Number of populated levels of a forest (0 for the empty forest; a single
childless node occupies one level, namely depth 0). -/
def numLevels : DagForest → Nat
  | .nil => 0
  | .node _ cs sib => max (numLevels cs + 1) (numLevels sib)

/-- The (id, depth) entries of one level. -/
def levelEntries (f : DagForest) (d : Nat) : List (Nat × Nat) :=
  (levelIds f d).map (fun i => (i, d))

/-- Breadth-first enumeration of a forest with depths: the host iterator in
kBreadthFirst mode dequeues nodes level by level, within a level in
left-to-right order, which this level-indexed enumeration reproduces. -/
def bfsEnum (f : DagForest) : List (Nat × Nat) :=
  (List.range (numLevels f)).flatMap (levelEntries f)

/-- The two traversal orders of om2.MItDag used by the walker. -/
inductive TraversalType where
  | kDepthFirst
  | kBreadthFirst
deriving DecidableEq, Repr

/-- Embedding of the IDag parameter object: the resolved root (a single node,
as with om2.MItDag, given by its id and its forest of children) and the
configuration fields set through the properties.  The getter and
filter_types fields of the source are fixed at their defaults for the claims
settled here (currentItem and the single kInvalid filter, meaning every node
is reported by the host iterator). -/
structure IDag where
  root_id : Nat
  root_children : DagForest
  traversal_type : TraversalType := .kDepthFirst
  traversal_depth_max : Nat := 0
  yield_only_at_depth : Nat := 0
deriving Repr

/-- The single-rooted forest the iterator is reset onto. -/
def IDag.rootTree (s : IDag) : DagForest :=
  .node s.root_id s.root_children .nil

/-- The while loop of IDag.doIt over the host enumeration: a nonzero limit
breaks the whole traversal at the first node whose depth reaches it; with a
nonzero yield_only_at_depth, shallower nodes are stepped over without being
yielded; every other node is yielded. -/
def doItLoop (limit yieldOnly : Nat) : List (Nat × Nat) → List Nat
  | [] => []
  | (n, d) :: rest =>
      if 0 < limit ∧ limit ≤ d then []
      else if 0 < yieldOnly ∧ d < yieldOnly then doItLoop limit yieldOnly rest
      else n :: doItLoop limit yieldOnly rest

/-- Embedding of IDag.doIt: when yield_only_at_depth is set the traversal
order is overridden to breadth first and the limit becomes
yield_only_at_depth + 1, otherwise the configured order and
traversal_depth_max are used; the chosen host enumeration is then consumed
by the loop. -/
def IDag.doIt (s : IDag) : List Nat :=
  let traversal_type :=
    if 0 < s.yield_only_at_depth then TraversalType.kBreadthFirst else s.traversal_type
  let limit :=
    if 0 < s.yield_only_at_depth then s.yield_only_at_depth + 1 else s.traversal_depth_max
  let enum :=
    match traversal_type with
    | .kDepthFirst => dfsEnum s.rootTree 0
    | .kBreadthFirst => bfsEnum s.rootTree
  doItLoop limit s.yield_only_at_depth enum

/-- The nodes the loop keeps from a stretch of the enumeration in which the
break condition never fires: entries below yieldOnly are dropped, the rest
are yielded.  Used to state how doItLoop decomposes over appends. -/
def skipFilter (yieldOnly : Nat) : List (Nat × Nat) → List Nat
  | [] => []
  | (n, d) :: rest =>
      if 0 < yieldOnly ∧ d < yieldOnly then skipFilter yieldOnly rest
      else n :: skipFilter yieldOnly rest

/-! ### Model of src/om2utils/dag/dag_duplicate.py -/

/-- Errors surfaced by the duplicator paths: resolution failure from
MSelectionList.add, the AttributeError from using the result handle before
any duplication stored one, the bare raise of the invalid-handle branches,
and host-level failure of a queued DAG edit. -/
inductive MErr where
  | notFound
  | attributeError
  | bareRaise
  | hostError
deriving DecidableEq, Repr

/-- A scene node for the duplicator model: its name (which is also the path
it resolves by) and its parent (none is the world). -/
structure DagNode where
  name : String
  parent : Option Nat
deriving DecidableEq, Repr

/-- The host scene for the duplicator model: an association list from node
id to node.  A node is alive exactly while it is present. -/
structure DScene where
  nodes : List (Nat × DagNode)
deriving DecidableEq, Repr

/-- Look a node up by id (MObjectHandle.isValid / isAlive is isSome here). -/
def DScene.find? (sc : DScene) (i : Nat) : Option DagNode :=
  (sc.nodes.find? (fun p => p.1 == i)).map (fun p => p.2)

/-- Model of dg_utils.as_mObject on a path string: MSelectionList.add raises
when nothing in the scene matches, otherwise the matching node is returned. -/
def DScene.resolve (sc : DScene) (path : String) : Except MErr Nat :=
  match sc.nodes.find? (fun p => p.2.name == path) with
  | some p => .ok p.1
  | none => .error .notFound

/-- Rename a node in place. -/
def DScene.setName (sc : DScene) (i : Nat) (nm : String) : DScene :=
  ⟨sc.nodes.map (fun p => if p.1 == i then (p.1, { p.2 with name := nm }) else p)⟩

/-- Reparent a node in place. -/
def DScene.setParent (sc : DScene) (i : Nat) (parent : Option Nat) : DScene :=
  ⟨sc.nodes.map (fun p => if p.1 == i then (p.1, { p.2 with parent := parent }) else p)⟩

/-- A fresh id for a node the host creates. -/
def DScene.freshId (sc : DScene) : Nat :=
  (sc.nodes.foldr (fun p a => max p.1 a) 0) + 1

/-- The edits that the duplicator queues on an om2.MDagModifier. -/
inductive DagOp where
  | reparentNode (child : Nat) (parent : Option Nat)
  | renameNode (node : Nat) (name : String)
deriving DecidableEq, Repr

/-- Host application of one queued edit: the host fails the edit when a
handle involved is no longer alive. -/
def dagOpApply (sc : DScene) : DagOp → Except MErr DScene
  | .renameNode i nm =>
      if (sc.find? i).isSome then .ok (sc.setName i nm) else .error .hostError
  | .reparentNode c parent =>
      if (sc.find? c).isSome &&
          (match parent with
           | none => true
           | some q => (sc.find? q).isSome) then
        .ok (sc.setParent c parent)
      else .error .hostError

/-- Model of om2.MDagModifier.doIt over the queued edit list: the edits are
committed in order as one batch. -/
def dagModifierDoIt (sc : DScene) (ops : List DagOp) : Except MErr DScene :=
  ops.foldl
    (fun acc op =>
      match acc with
      | .error e => .error e
      | .ok s => dagOpApply s op)
    (.ok sc)

/-- The configuration and result state of a HierarchyDuplicator instance. -/
structure HierarchyDuplicator where
  source_path : String
  destination_path : Option String := none
  replace : Bool := true
  new_name : Option String := none
  result_mobj : Option Nat := none
deriving DecidableEq, Repr

/-- Embedding of HierarchyDuplicator._src_is_valid_mobject_handle: the
source_mobjhandle property re-resolves self._source_path (which raises if
the path no longer matches anything) and a freshly resolved MObjectHandle
reports isValid and isAlive. -/
def hd_src_is_valid (sc : DScene) (st : HierarchyDuplicator) : Except MErr Bool :=
  match sc.resolve st.source_path with
  | .error e => .error e
  | .ok i => .ok (sc.find? i).isSome

/-- Embedding of the _source_mobj property: asserts the handle is valid and
returns the resolved object. -/
def hd_source_mobj (sc : DScene) (st : HierarchyDuplicator) : Except MErr Nat :=
  sc.resolve st.source_path

/-- Embedding of HierarchyDuplicator._setup: when a destination path is set,
resolves, and replace is true, the existing node there is deleted.  The
claims settled here run with destination_path unset, so host subtree
deletion is modelled as removal of the resolved node itself. -/
def hd_setup (sc : DScene) (st : HierarchyDuplicator) : DScene :=
  match st.destination_path with
  | none => sc
  | some p =>
      match sc.resolve p with
      | .error _ => sc
      | .ok i => if st.replace then ⟨sc.nodes.filter (fun q => !(q.1 == i))⟩ else sc

/-- Modelled host primitive mc.duplicate: copies the source node under a
fresh id with the host-chosen copy name.  The parent under which the host
places the copy is passed explicitly as hostPlacement, because the layer
does not control it (the spec only says the host typically parents the copy
identically to the source).  The claims exercised here duplicate childless
sources, so the subtree copy is a single node. -/
def mc_duplicate (sc : DScene) (src : Nat) (hostPlacement : Option Nat) : DScene × Nat :=
  let i := sc.freshId
  let nm := ((sc.find? src).map (fun n => n.name)).getD "" ++ "1"
  (⟨sc.nodes ++ [(i, ⟨nm, hostPlacement⟩)]⟩, i)

/-- Model of the attribute access self._result_mobj.object() on line 72 of
dag_duplicate.py: before any duplication _result_mobj is None, and after a
duplication it holds the raw om2.MObject returned by as_mObject (line 38);
neither None nor om2.MObject defines an object() method - object() belongs
to om2.MObjectHandle, as the author's own source_mobjhandle property shows -
so the access raises AttributeError in both cases. -/
def MObject_object : Option Nat → Except MErr Nat
  | none => .error .attributeError
  | some _ => .error .attributeError

/-- Embedding of HierarchyDuplicator.rename: evaluates
self._result_mobj.object(), which raises AttributeError whether or not a
duplication has executed (see MObject_object), so the guard and the queued
renameNode below it are dead code, kept to mirror the source structure. -/
def hd_rename (sc : DScene) (st : HierarchyDuplicator) (nm : String) : Except MErr DScene := do
  let root ← MObject_object st.result_mobj
  match hd_src_is_valid sc st with
  | .error e => .error e
  | .ok true => dagModifierDoIt sc [.renameNode root nm]
  | .ok false => .error .bareRaise

/-- Embedding of HierarchyDuplicator.duplicate: _setup, then _duplicate
(which resolves and asserts the source and stores the new root handle), then
the optional rename. -/
def hd_duplicate (sc : DScene) (st : HierarchyDuplicator) (hostPlacement : Option Nat) :
    Except MErr (DScene × HierarchyDuplicator) := do
  let sc := hd_setup sc st
  let src ← hd_source_mobj sc st
  let (sc, dup) := mc_duplicate sc src hostPlacement
  let st := { st with result_mobj := some dup }
  match st.new_name with
  | some nm => do
      let sc ← hd_rename sc st nm
      .ok (sc, st)
  | none => .ok (sc, st)

/-- Embedding of HierarchyDuplicator._parent_under: re-resolves the captured
parent, checks the source handle, and then queues reparentNode on
self._source_mobj - the SOURCE node, not the duplicated root stored in
self._result_mobj - and commits. -/
def hd_parent_under (sc : DScene) (st : HierarchyDuplicator) (parent : Option Nat) :
    Except MErr DScene := do
  let parentId ← (match parent with
    | none => Except.ok (none : Option Nat)
    | some q => if (sc.find? q).isSome then .ok (some q) else .error MErr.notFound)
  match hd_src_is_valid sc st with
  | .error e => .error e
  | .ok true => do
      let src ← hd_source_mobj sc st
      dagModifierDoIt sc [.reparentNode src parentId]
  | .ok false => .error .bareRaise

/-- Model of the attribute access self._source_dagpath.parent on line 51 of
dag_duplicate.py: om2.MDagPath exposes no parent attribute (one pops the
path or uses MFnDagNode.parent), so the access raises AttributeError. -/
def MDagPath_parent_attr : Except MErr (Option Nat) :=
  .error .attributeError

/-- Embedding of HierarchyDuplicator.duplicate_under_same_parent: the first
statement resolves the source (the _source_dagpath property chain, which
raises if the source path no longer matches) and then evaluates
self._source_dagpath.parent - an attribute om2.MDagPath does not have, so
the call raises AttributeError before any duplication; the duplication and
the _parent_under call below are dead code, kept to mirror the source
structure. -/
def duplicate_under_same_parent (sc : DScene) (st : HierarchyDuplicator)
    (hostPlacement : Option Nat) : Except MErr (DScene × HierarchyDuplicator) := do
  let _srcId ← sc.resolve st.source_path
  let parent ← MDagPath_parent_attr
  let (sc, st) ← hd_duplicate sc st hostPlacement
  let sc ← hd_parent_under sc st parent
  .ok (sc, st)

/-! ### Model of src/om2utils/dag/dag_manip.py (create_parent_above) -/

/-- A transform node for the parent-insertion model: its name, an abstract
stand-in for its local transformation matrix value, its scale and rotate
pivots, and its parent (none is the world). -/
structure TransformNode where
  name : String
  matrix : Int
  scalePivot : Int × Int × Int
  rotatePivot : Int × Int × Int
  parent : Option Nat
deriving DecidableEq, Repr

/-- The identity transformation matrix value (MTransformationMatrix()). -/
def identityMatrix : Int := 0

/-- The pivot values of a freshly created transform. -/
def zeroPivot : Int × Int × Int := (0, 0, 0)

/-- The transform scene: an association list from node id to transform. -/
structure TScene where
  nodes : List (Nat × TransformNode)
deriving DecidableEq, Repr

/-- Look a transform up by id. -/
def TScene.find? (sc : TScene) (i : Nat) : Option TransformNode :=
  (sc.nodes.find? (fun p => p.1 == i)).map (fun p => p.2)

/-- Update one transform in place. -/
def TScene.updateNode (sc : TScene) (i : Nat) (f : TransformNode → TransformNode) : TScene :=
  ⟨sc.nodes.map (fun p => if p.1 == i then (p.1, f p.2) else p)⟩

/-- A fresh id for a node the host creates. -/
def TScene.freshId (sc : TScene) : Nat :=
  (sc.nodes.foldr (fun p a => max p.1 a) 0) + 1

/-- Embedding of dag_manip.create_parent_above, step for step:
capture the transformation matrix of mobj, capture its parent, create a new
transform under that parent (the hasFn(kTransform) test keeps a real parent
and maps the world to kNullObj; in this model every stored node is a
transform and none is the world, so the attach target is the captured
parent) - om2.MFnTransform.create attaches the function set to the NEW node;
queue the reparent of mobj under the new transform plus the optional rename
and commit; read scalePivot and rotatePivot from the function set, which at
this point targets the freshly created parent (its default zero pivots, not
the pivots mobj had); set the transformation of the new parent to the
captured matrix and its pivots to those read values; point the function set
back at mobj, reset its transformation to the identity and set its pivots to
the same read values. -/
def create_parent_above (sc : TScene) (mobj : Nat) (name : Option String) :
    Option (TScene × Nat) := do
  let mtransNode ← sc.find? mobj
  let identity_matrix := mtransNode.matrix
  let parent := mtransNode.parent
  let node := parent
  let new_parent := sc.freshId
  let sc : TScene := ⟨sc.nodes ++
    [(new_parent,
      { name := "transform", matrix := identityMatrix,
        scalePivot := zeroPivot, rotatePivot := zeroPivot, parent := node })]⟩
  let sc := sc.updateNode mobj (fun n => { n with parent := some new_parent })
  let sc :=
    match name with
    | some nm => sc.updateNode new_parent (fun n => { n with name := nm })
    | none => sc
  let newParentNode ← sc.find? new_parent
  let scalePivot := newParentNode.scalePivot
  let rotatePivot := newParentNode.rotatePivot
  let sc := sc.updateNode new_parent
    (fun n => { n with matrix := identity_matrix,
                       scalePivot := scalePivot, rotatePivot := rotatePivot })
  let sc := sc.updateNode mobj
    (fun n => { n with matrix := identityMatrix,
                       scalePivot := scalePivot, rotatePivot := rotatePivot })
  some (sc, new_parent)

/-! ### Model of src/mayatools/uvs.py (UVActions) -/

/-- The UV-set state of one mesh: its full path, the ordered UV-set names as
the host enumerates them, and the name of the current set. -/
structure MeshUV where
  fullpath : String
  uvsets : List String
  current : String
deriving DecidableEq, Repr

/-- Embedding of UVActions.uvset_exists. -/
def uvset_exists (m : MeshUV) (uvset : String) : Bool :=
  m.uvsets.contains uvset

/-- Embedding of the uvset_default property: the first enumerated set, or a
RuntimeError when the mesh has none. -/
def uvset_default (m : MeshUV) : Except String String :=
  match m.uvsets with
  | [] => .error ("No UV sets could be found on " ++ m.fullpath)
  | d :: _ => .ok d

/-- Embedding of UVActions.uvset_current_switch (polyUVSet currentUVSet). -/
def uvset_current_switch (m : MeshUV) (uvset : String) : MeshUV :=
  { m with current := uvset }

/-- The host error raised when deletion of the active set is refused. -/
def uv_delete_current_err (uvset : String) : String :=
  "Cannot delete the current uv set " ++ uvset

/-- Modelled host primitive polyUVSet delete.  Modelled from the spec: the
host refuses to delete the mesh's active set (deleting the current set
requires first switching current to another existing set), so the call
fails when the named set is the current one and otherwise removes it from
the enumeration. -/
def mc_polyUVSet_delete (m : MeshUV) (uvset : String) : Except String MeshUV :=
  if m.current == uvset then .error (uv_delete_current_err uvset)
  else .ok { m with uvsets := m.uvsets.erase uvset }

/-- The info log line for a performed removal. -/
def uv_removed_msg (uvset fullpath : String) : String :=
  "Removed uv set " ++ uvset ++ " from mesh " ++ fullpath ++ "."

/-- The info log line for a skipped removal. -/
def uv_skipped_msg (uvset fullpath : String) : String :=
  "Removal of uv set " ++ uvset ++ " from mesh " ++ fullpath ++ " skipped - doesnt exist."

/-- Embedding of UVActions.uvset_delete: when the set exists, switch the
current set to uvset_default (the first enumerated set), then ask the host
to delete the named set and log the removal; otherwise log a skip and leave
the mesh unchanged.  The result pairs the final mesh state with the logged
line; errors are those surfaced by uvset_default or by the host delete
(which, per the spec, refuses to delete the active set - reached exactly
when the named set is the first enumerated one, since the switch just made
that set current). -/
def uvset_delete (m : MeshUV) (uvset : String) : Except String (MeshUV × String) :=
  if uvset_exists m uvset then do
    let d ← uvset_default m
    let m2 := uvset_current_switch m d
    let m3 ← mc_polyUVSet_delete m2 uvset
    .ok (m3, uv_removed_msg uvset m.fullpath)
  else
    .ok (m, uv_skipped_msg uvset m.fullpath)

/-! ### Concrete instances used by counterexamples and witnesses -/

/-- A walker over the scene
root 0 with children 1 and 2 (depth 1) and grandchildren 3 and 4 (depth 2),
configured with the maximum-depth limit set to 1. -/
def exampleWalkerMaxOne : IDag :=
  { root_id := 0,
    root_children := .node 1 (.node 3 .nil .nil) (.node 2 (.node 4 .nil .nil) .nil),
    traversal_depth_max := 1 }

/-- The same scene with the exact-depth-only restriction set to 2. -/
def exampleWalkerExactTwo : IDag :=
  { root_id := 0,
    root_children := .node 1 (.node 3 .nil .nil) (.node 2 (.node 4 .nil .nil) .nil),
    yield_only_at_depth := 2 }

/-- A scene for the duplicator: parent X (id 1) under the world, source s
(id 2) under X. -/
def exampleDupScene : DScene := ⟨[(1, ⟨"X", none⟩), (2, ⟨"s", some 1⟩)]⟩

/-- A duplicator configured on source s. -/
def exampleDup : HierarchyDuplicator := { source_path := "s" }

/-- A healthy post-duplication state: source (id 1) and duplicated root
(id 5) both alive. -/
def exampleRenameSceneOk : DScene := ⟨[(1, ⟨"src", none⟩), (5, ⟨"dup", none⟩)]⟩

/-- The duplicator state matching exampleRenameSceneOk. -/
def exampleRenameDupOk : HierarchyDuplicator :=
  { source_path := "src", result_mobj := some 5 }

/-- A transform with a non-trivial matrix and non-zero pivots, under the
world. -/
def examplePivotScene : TScene := ⟨[(1, ⟨"node", 7, (1, 2, 3), (4, 5, 6), none⟩)]⟩

/-- The scene create_parent_above produces from examplePivotScene: the new
parent (id 2) receives the captured matrix but zero pivots, and the original
node (id 1) is reset to the identity with zero pivots. -/
def examplePivotSceneAfter : TScene :=
  ⟨[(1, ⟨"node", 0, (0, 0, 0), (0, 0, 0), some 2⟩),
    (2, ⟨"transform", 7, (0, 0, 0), (0, 0, 0), none⟩)]⟩

/-- A node whose visibility plug is locked. -/
def exampleVisA : VisNode := ⟨"a", true, true⟩

/-- A node with a path-and-namespace name whose short name is b. -/
def exampleVisB : VisNode := ⟨"grp|ns:b", false, false⟩

/-- A plain settable node. -/
def exampleVisC : VisNode := ⟨"c", true, false⟩

/-- A mesh with two UV sets whose current set is the second one. -/
def exampleMesh : MeshUV := ⟨"|mesh", ["map1", "uv2"], "uv2"⟩

/-! ## Theorems settling the claims -/

/-- C1: the claim says duplicate_under_same_parent completes and leaves the
newly duplicated root under the captured parent X.  On the code, the very
first statement evaluates self._source_dagpath.parent, an attribute
om2.MDagPath does not have, so the call raises AttributeError before any
duplication: at the concrete scene (source s under parent X) the call
errors with nothing duplicated and nothing reparented, and in fact the
method can never return successfully on any input. -/
theorem c1_duplicate_under_same_parent_raises_before_duplicating :
    duplicate_under_same_parent exampleDupScene exampleDup none = .error .attributeError ∧
    (∀ (sc : DScene) (st : HierarchyDuplicator) (hp : Option Nat),
      ∃ e, duplicate_under_same_parent sc st hp = .error e) := by
  refine ⟨rfl, ?_⟩
  intro sc st hp
  cases hres : sc.resolve st.source_path with
  | error e =>
    exact ⟨e, by unfold duplicate_under_same_parent; rw [hres]; rfl⟩
  | ok i =>
    exact ⟨.attributeError, by unfold duplicate_under_same_parent; rw [hres]; rfl⟩

/-- C3: the claim says create_parent_above copies the pre-insertion scale
and rotate pivots of the node onto the new parent.  On the code, the pivots
are read AFTER om2.MFnTransform.create retargeted the function set to the
freshly created parent, so the values copied are the new parent's default
zero pivots; evaluated at a node with pivots (1,2,3) and (4,5,6) and matrix
7, the new parent receives the captured matrix 7 but zero pivots, and the
node's own original pivots are overwritten with zeros as well. -/
theorem c3_create_parent_above_copies_default_pivots_not_node_pivots :
    create_parent_above examplePivotScene 1 none = some (examplePivotSceneAfter, 2) ∧
    (examplePivotSceneAfter.find? 2).map (fun n => n.matrix) = some 7 ∧
    (examplePivotSceneAfter.find? 2).map (fun n => n.scalePivot) = some (0, 0, 0) ∧
    (some ((0, 0, 0) : Int × Int × Int) ≠ some (1, 2, 3)) ∧
    (examplePivotSceneAfter.find? 2).map (fun n => n.rotatePivot) = some (0, 0, 0) ∧
    (examplePivotSceneAfter.find? 1).map (fun n => n.scalePivot) = some (0, 0, 0) :=
  ⟨rfl, rfl, rfl, by decide, rfl, rfl⟩

/-- C4: the claim says get_fullpath returns the dependency-graph name for a
non-DAG dependency node.  On the code, an MObject that is a dependency node
but not DAG capable matches the isinstance(mobj, om2.MObject) elif, fails
the inner hasFn(kDagNode) test, and falls off the function: the result is
Python None, not the dependency-graph name "time1" (and not a string at
all). -/
theorem c4_get_fullpath_returns_none_for_dg_only_mobject :
    get_fullpath (.mobject false true "" "time1") = .ok none ∧
    (none : Option String) ≠ some "time1" :=
  ⟨rfl, by decide⟩

/-- C2 counterexample: on the scene with root 0, children 1 and 2 at depth 1
and grandchildren 3 and 4 at depth 2, the walker with the maximum-depth
limit set to 1 yields [0] - the root only - and not the depth-1 nodes
[1, 2] the claim promises. -/
theorem c2_max_depth_one_counterexample :
    exampleWalkerMaxOne.doIt = [0] ∧
    exampleWalkerMaxOne.doIt ≠ levelIds exampleWalkerMaxOne.rootTree 1 := by
  decide

/-- C9: the claim says rename fails before any duplication and on a stale
duplicated handle, and otherwise renames the previously-duplicated root.
The failure half is vacuously honoured, but the success half can never
happen: rename first evaluates self._result_mobj.object(), and _result_mobj
holds None before a duplication and a raw om2.MObject afterwards, neither of
which defines object() - so every call raises AttributeError.  Evaluated at
the healthy post-duplication state (source resolvable, duplicated root 5
alive - exactly the case in which the claim promises a rename), the call
raises, and the universal half shows it raises the same way on every
input. -/
theorem c9_rename_always_raises_attribute_error :
    hd_rename exampleRenameSceneOk exampleRenameDupOk "renamed" = .error .attributeError ∧
    (∀ (sc : DScene) (st : HierarchyDuplicator) (nm : String),
      hd_rename sc st nm = .error .attributeError) := by
  refine ⟨rfl, ?_⟩
  intro sc st nm
  cases hres : st.result_mobj with
  | none => unfold hd_rename; rw [hres]; rfl
  | some r => unfold hd_rename; rw [hres]; rfl

/-- Helper: binding a success in the Except monad applies the
continuation. -/
theorem bind_ok_eq {e a b : Type} (x : a) (f : a → Except e b) :
    (Except.ok x : Except e a) >>= f = f x := rfl

/-- Helper: binding a raised error in the Except monad propagates it. -/
theorem bind_error_eq {e a b : Type} (err : e) (f : a → Except e b) :
    (Except.error err : Except e a) >>= f = .error err := rfl

/-- Helper: uvset_delete on a missing set is the logged no-op. -/
theorem uvset_delete_missing_eq (m : MeshUV) (u : String) (h : uvset_exists m u = false) :
    uvset_delete m u = .ok (m, uv_skipped_msg u m.fullpath) := by
  simp [uvset_delete, h]

/-- Helper: on an existing set, uvset_delete factors as the switch of the
current set to the first enumerated set followed by the host delete call on
the switched mesh. -/
theorem uvset_delete_exists_decomp (m : MeshUV) (u : String) (h : uvset_exists m u = true) :
    uvset_delete m u =
      Except.map (fun m3 => (m3, uv_removed_msg u m.fullpath))
        (mc_polyUVSet_delete (uvset_current_switch m (m.uvsets.headD "")) u) := by
  obtain ⟨fp, sets, cur⟩ := m
  cases hs : sets with
  | nil => rw [uvset_exists] at h; simp [hs] at h
  | cons d rest =>
    subst hs
    simp only [uvset_delete, h, if_true, uvset_default, bind_ok_eq, List.headD_cons]
    cases hmc : mc_polyUVSet_delete
        (uvset_current_switch ⟨fp, d :: rest, cur⟩ d) u with
    | error e => rfl
    | ok m3 => rfl

/-- Helper: deleting an existing set that is not the first enumerated one
succeeds: the current set becomes the first enumerated set and the named
set is erased. -/
theorem uvset_delete_not_head_eq (m : MeshUV) (u : String) (h : uvset_exists m u = true)
    (hh : u ≠ m.uvsets.headD "") :
    uvset_delete m u =
      .ok (⟨m.fullpath, m.uvsets.erase u, m.uvsets.headD ""⟩, uv_removed_msg u m.fullpath) := by
  obtain ⟨fp, sets, cur⟩ := m
  cases hs : sets with
  | nil => rw [uvset_exists] at h; simp [hs] at h
  | cons d rest =>
    subst hs
    simp only [List.headD_cons] at hh
    have hne : d ≠ u := Ne.symm hh
    simp [uvset_delete, h, uvset_default, bind_ok_eq, uvset_current_switch,
          mc_polyUVSet_delete, hne]

/-- Helper: deleting the first enumerated set fails at host level: the
switch has just made that very set current, and the host refuses to delete
the active set. -/
theorem uvset_delete_head_eq (m : MeshUV) (u : String) (h : uvset_exists m u = true)
    (hh : u = m.uvsets.headD "") :
    uvset_delete m u = .error (uv_delete_current_err u) := by
  obtain ⟨fp, sets, cur⟩ := m
  cases hs : sets with
  | nil => rw [uvset_exists] at h; simp [hs] at h
  | cons d rest =>
    subst hs
    simp only [List.headD_cons] at hh
    subst hh
    simp only [uvset_delete, h, if_true, uvset_default, bind_ok_eq, uvset_current_switch,
               mc_polyUVSet_delete]
    rw [if_pos (beq_self_eq_true u)]
    rfl

/-- C7 counterexample: map1 exists on the concrete two-set mesh, yet
deleting it does not produce the logged removal the claim promises for
every existing name: the switch first makes map1 the current set, and the
host then refuses to delete the active set, so the call raises. -/
theorem c7_uvset_delete_counterexample :
    uvset_exists exampleMesh "map1" = true ∧
    uvset_delete exampleMesh "map1" = .error (uv_delete_current_err "map1") :=
  ⟨rfl, rfl⟩

/-- C7 (amended): a missing set is logged as a skip and returned without
error - the call never fails on a missing set; an existing set that is not
the first enumerated one is deleted after the current set is switched to
the first enumerated set, with the removal logged; but an existing set that
IS the first enumerated one is made current by that very switch and the
host-level delete then fails, so the call raises instead of removing it. -/
theorem c7_uvset_delete_amended (m : MeshUV) (u : String) :
    (uvset_exists m u = false → uvset_delete m u = .ok (m, uv_skipped_msg u m.fullpath)) ∧
    (uvset_exists m u = true → u ≠ m.uvsets.headD "" →
      uvset_delete m u =
        .ok (⟨m.fullpath, m.uvsets.erase u, m.uvsets.headD ""⟩, uv_removed_msg u m.fullpath)) ∧
    (uvset_exists m u = true → u = m.uvsets.headD "" →
      uvset_delete m u = .error (uv_delete_current_err u)) :=
  ⟨uvset_delete_missing_eq m u,
   fun h hh => uvset_delete_not_head_eq m u h hh,
   fun h hh => uvset_delete_head_eq m u h hh⟩

/-- C7 (amended) witness: on the concrete mesh, a missing name is skipped
without error, deleting the non-first set uv2 succeeds with current
switched to map1, and deleting the first set map1 raises at host level. -/
theorem c7_uvset_delete_amended_witness :
    uvset_delete exampleMesh "nope" = .ok (exampleMesh, uv_skipped_msg "nope" "|mesh") ∧
    uvset_delete exampleMesh "uv2" =
      .ok (⟨"|mesh", ["map1"], "map1"⟩, uv_removed_msg "uv2" "|mesh") ∧
    uvset_delete exampleMesh "map1" = .error (uv_delete_current_err "map1") :=
  ⟨(c7_uvset_delete_amended exampleMesh "nope").1 rfl,
   (c7_uvset_delete_amended exampleMesh "uv2").2.1 rfl (by decide),
   (c7_uvset_delete_amended exampleMesh "map1").2.2 rfl rfl⟩

/-- C10: whenever the named set exists, uvset_delete routes through the
switch of the current set to the first enumerated set - always the first
enumerated set, whatever the name being deleted.  When the name IS the
first enumerated set, the current set at delete time is therefore the very
set about to be deleted, and the host delete accordingly fails; the switch
lands away from the deleted name, and the deletion goes through, exactly
when the name is not the first enumerated set. -/
theorem c10_uvset_delete_switch_target_is_first_enumerated (m : MeshUV) (u : String)
    (h : uvset_exists m u = true) :
    uvset_delete m u =
      Except.map (fun m3 => (m3, uv_removed_msg u m.fullpath))
        (mc_polyUVSet_delete (uvset_current_switch m (m.uvsets.headD "")) u) ∧
    (uvset_current_switch m (m.uvsets.headD "")).current = m.uvsets.headD "" ∧
    (u = m.uvsets.headD "" →
      (uvset_current_switch m (m.uvsets.headD "")).current = u ∧
      uvset_delete m u = .error (uv_delete_current_err u)) ∧
    (u ≠ m.uvsets.headD "" →
      uvset_delete m u =
        .ok (⟨m.fullpath, m.uvsets.erase u, m.uvsets.headD ""⟩, uv_removed_msg u m.fullpath)) := by
  refine ⟨uvset_delete_exists_decomp m u h, rfl, ?_, fun hh => uvset_delete_not_head_eq m u h hh⟩
  intro hu
  constructor
  · rw [hu]
    rfl
  · exact uvset_delete_head_eq m u h hu

/-- C10 witness: deleting map1, the first enumerated set of the concrete
mesh, switches current onto map1 itself - the set about to be deleted - and
the host delete then fails. -/
theorem c10_uvset_delete_witness :
    (uvset_current_switch exampleMesh (exampleMesh.uvsets.headD "")).current = "map1" ∧
    uvset_delete exampleMesh "map1" = .error (uv_delete_current_err "map1") :=
  (c10_uvset_delete_switch_target_is_first_enumerated exampleMesh "map1" rfl).2.2.1 rfl

/-- Helper: the batch visibility loop processes an appended list as the two
batches one after the other, in every component of the result. -/
theorem set_visibility_append (l1 l2 : List VisNode) (s : Option (List String)) :
    _set_visibility (l1 ++ l2) s =
      ⟨(_set_visibility l1 s).nodes ++ (_set_visibility l2 s).nodes,
       (_set_visibility l1 s).errLogs ++ (_set_visibility l2 s).errLogs,
       (_set_visibility l1 s).summary ++ (_set_visibility l2 s).summary⟩ := by
  induction l1 with
  | nil => rfl
  | cons n rest ih =>
    simp [_set_visibility, ih, List.append_assoc]

/-- Helper: the loop body on one locked node leaves the node unchanged and
produces the error log line built from its plug name and the caught
reason. -/
theorem set_visibility_locked_cons (n : VisNode) (rest : List VisNode)
    (s : Option (List String)) (h : n.locked = true) :
    _set_visibility (n :: rest) s =
      ⟨n :: (_set_visibility rest s).nodes,
       vis_err_log n "setBool failed, plug is locked or connected" ::
         (_set_visibility rest s).errLogs,
       ((s.getD []).contains (node_short_name n), n.name) ::
         (_set_visibility rest s).summary⟩ := by
  simp [_set_visibility, MPlug_setBool, h]

/-- C5: when setting the visibility plug fails for one node of the batch
(modelled by a locked plug, on which MPlug.setBool raises RuntimeError), the
failure is caught: every node before and after the failing one is processed
exactly as in its own batch, the failing node is left unchanged, and the
error log gains one line built from the failing node's plug name and the
underlying reason.  The embedding of the call is total - the caught
RuntimeError never escapes - which is the claim that the overall call does
not raise. -/
theorem c5_set_visibility_catches_failure_and_continues (s : Option (List String))
    (pre post : List VisNode) (n : VisNode) (h : n.locked = true) :
    set_visibility_by_shortname (pre ++ n :: post) s =
      ⟨(_set_visibility pre s).nodes ++ n :: (_set_visibility post s).nodes,
       (_set_visibility pre s).errLogs ++
         vis_err_log n "setBool failed, plug is locked or connected" ::
           (_set_visibility post s).errLogs,
       (_set_visibility pre s).summary ++
         ((s.getD []).contains (node_short_name n), n.name) ::
           (_set_visibility post s).summary⟩ := by
  rw [set_visibility_by_shortname, set_visibility_append,
      set_visibility_locked_cons n post s h]

/-- C5 witness: in the batch [a, b, c] with the plug of a locked and show
list [b], the call returns with a unchanged and logged, and b and c still
processed (b shown, c hidden). -/
theorem c5_set_visibility_witness :
    set_visibility_by_shortname [exampleVisA, exampleVisB, exampleVisC] (some ["b"]) =
      ⟨[⟨"a", true, true⟩, ⟨"grp|ns:b", true, false⟩, ⟨"c", false, false⟩],
       ["Could not set a.visibility Reason: setBool failed, plug is locked or connected"],
       [(false, "a"), (true, "grp|ns:b"), (false, "c")]⟩ :=
  (c5_set_visibility_catches_failure_and_continues (some ["b"]) [] [exampleVisB, exampleVisC]
    exampleVisA rfl).trans (by decide)

/-- Helper: when no plug in the batch is locked, every node comes out with
its visibility set to the membership of its short name in the show list. -/
theorem set_visibility_all_unlocked (mobjs : List VisNode) (s : Option (List String))
    (h : ∀ n ∈ mobjs, n.locked = false) :
    (_set_visibility mobjs s).nodes =
      mobjs.map (fun n => { n with visibility := (s.getD []).contains (node_short_name n) }) := by
  induction mobjs with
  | nil => rfl
  | cons n rest ih =>
    have hn : n.locked = false := h n (by simp)
    have hrest : ∀ x ∈ rest, x.locked = false := fun x hx => h x (by simp [hx])
    simp [_set_visibility, MPlug_setBool, hn, ih hrest]

/-- C6: for every collection of handles and every (possibly absent) show
list, provided no per-node set fails (failures are the subject of the
error-handling claim C5), the batch sets each node's visibility to true
exactly when the node's short name appears in the show list; an absent or
empty show list hides every node. -/
theorem c6_set_visibility_true_iff_shortname_shown (mobjs : List VisNode)
    (s : Option (List String)) (h : ∀ n ∈ mobjs, n.locked = false) :
    (set_visibility_by_shortname mobjs s).nodes =
      mobjs.map (fun n => { n with visibility := (s.getD []).contains (node_short_name n) }) ∧
    (s.getD [] = [] →
      ∀ n2 ∈ (set_visibility_by_shortname mobjs s).nodes, n2.visibility = false) := by
  have hmain := set_visibility_all_unlocked mobjs s h
  refine ⟨hmain, ?_⟩
  intro hemp n2 hn2
  rw [set_visibility_by_shortname, hmain] at hn2
  obtain ⟨n, hn, rfl⟩ := List.mem_map.1 hn2
  simp [hemp]

/-- C6 witness: on the unlocked nodes b (whose short name b is derived from
a namespaced path name) and c with show list [b], b is shown and c hidden;
with the absent show list both are hidden. -/
theorem c6_set_visibility_witness :
    (set_visibility_by_shortname [exampleVisB, exampleVisC] (some ["b"])).nodes =
      [⟨"grp|ns:b", true, false⟩, ⟨"c", false, false⟩] ∧
    (set_visibility_by_shortname [exampleVisB, exampleVisC] none).nodes =
      [⟨"grp|ns:b", false, false⟩, ⟨"c", false, false⟩] :=
  ⟨((c6_set_visibility_true_iff_shortname_shown [exampleVisB, exampleVisC] (some ["b"])
      (by decide)).1).trans (by decide),
   ((c6_set_visibility_true_iff_shortname_shown [exampleVisB, exampleVisC] none
      (by decide)).1).trans (by decide)⟩

/-- Helper: every entry of the depth-first enumeration started at depth d
lies at depth d or deeper. -/
theorem dfsEnum_depth_le (f : DagForest) :
    ∀ (d : Nat) (p : Nat × Nat), p ∈ dfsEnum f d → d ≤ p.2 := by
  induction f with
  | nil => intro d p hp; simp [dfsEnum] at hp
  | node i cs sib ihc ihs =>
    intro d p hp
    simp only [dfsEnum, List.mem_cons, List.mem_append] at hp
    rcases hp with hp | hp | hp
    · subst hp; exact Nat.le_refl d
    · exact Nat.le_trans (Nat.le_succ d) (ihc (d + 1) p hp)
    · exact ihs d p hp

/-- Helper: the entries of one breadth-first level all carry that depth. -/
theorem levelEntries_depth {f : DagForest} {d : Nat} {p : Nat × Nat}
    (hp : p ∈ levelEntries f d) : p.2 = d := by
  simp only [levelEntries, List.mem_map] at hp
  obtain ⟨i, _, hpe⟩ := hp
  subst hpe
  rfl

/-- Helper: there are no nodes at or beyond the level count. -/
theorem levelIds_eq_nil (f : DagForest) : ∀ d, numLevels f ≤ d → levelIds f d = [] := by
  induction f with
  | nil => intro d _; rfl
  | node i cs sib ihc ihs =>
    intro d hd
    simp only [numLevels, Nat.max_le] at hd
    cases d with
    | zero => omega
    | succ e =>
      simp only [levelIds]
      rw [ihc e (by omega), ihs (e + 1) (by omega)]
      rfl

/-- Helper: skipFilter distributes over appended enumerations. -/
theorem skipFilter_append (y : Nat) (l1 l2 : List (Nat × Nat)) :
    skipFilter y (l1 ++ l2) = skipFilter y l1 ++ skipFilter y l2 := by
  induction l1 with
  | nil => rfl
  | cons p rest ih =>
    obtain ⟨n, d⟩ := p
    by_cases hs : 0 < y ∧ d < y
    · simp [skipFilter, hs, ih]
    · simp [skipFilter, hs, ih]

/-- Helper: a stretch in which every entry is shallower than the skip bound
contributes nothing. -/
theorem skipFilter_eq_nil (y : Nat) (l : List (Nat × Nat)) (hy : 0 < y)
    (h : ∀ p ∈ l, p.2 < y) : skipFilter y l = [] := by
  induction l with
  | nil => rfl
  | cons p rest ih =>
    obtain ⟨n, d⟩ := p
    have hd : d < y := h (n, d) (by simp)
    have hc : 0 < y ∧ d < y := ⟨hy, hd⟩
    simp only [skipFilter, if_pos hc]
    exact ih (fun q hq => h q (by simp [hq]))

/-- Helper: a level whose depth is not below the skip bound is yielded
whole. -/
theorem skipFilter_const_depth (y d : Nat) (l : List Nat) (h : ¬(0 < y ∧ d < y)) :
    skipFilter y (l.map (fun i => (i, d))) = l := by
  induction l with
  | nil => rfl
  | cons n rest ih =>
    simp only [List.map_cons, skipFilter, if_neg h]
    rw [ih]

/-- Helper: over a stretch in which the break condition never fires, the
doIt loop yields exactly the skip-filtered entries and carries on. -/
theorem doItLoop_append (limit y : Nat) (l1 l2 : List (Nat × Nat))
    (h : ∀ p ∈ l1, ¬(0 < limit ∧ limit ≤ p.2)) :
    doItLoop limit y (l1 ++ l2) = skipFilter y l1 ++ doItLoop limit y l2 := by
  induction l1 with
  | nil => rfl
  | cons p rest ih =>
    obtain ⟨n, d⟩ := p
    have h1 : ¬(0 < limit ∧ limit ≤ d) := h (n, d) (by simp)
    have h2 : ∀ q ∈ rest, ¬(0 < limit ∧ limit ≤ q.2) := fun q hq => h q (by simp [hq])
    by_cases hskip : 0 < y ∧ d < y
    · simp only [List.cons_append, doItLoop, skipFilter, if_neg h1, if_pos hskip]
      exact ih h2
    · simp only [List.cons_append, doItLoop, skipFilter, if_neg h1, if_neg hskip]
      exact congrArg (fun l => n :: l) (ih h2)

/-- Helper: a nonzero limit ends the traversal at once when every remaining
entry is at or beyond it. -/
theorem doItLoop_eq_nil (limit y : Nat) (l : List (Nat × Nat)) (hlim : 0 < limit)
    (h : ∀ p ∈ l, limit ≤ p.2) : doItLoop limit y l = [] := by
  cases l with
  | nil => rfl
  | cons p rest =>
    obtain ⟨n, d⟩ := p
    have hd : limit ≤ d := h (n, d) (by simp)
    have hc : 0 < limit ∧ limit ≤ d := ⟨hlim, hd⟩
    simp only [doItLoop, if_pos hc]

/-- Helper: breadth-first entries lie strictly below the level count. -/
theorem mem_bfsEnum_depth_lt {f : DagForest} {p : Nat × Nat} (hp : p ∈ bfsEnum f) :
    p.2 < numLevels f := by
  simp only [bfsEnum, List.mem_flatMap] at hp
  obtain ⟨a, ha, hpa⟩ := hp
  rw [levelEntries_depth hpa]
  exact List.mem_range.1 ha

/-- Helper: the core of the exact-depth mode: with the loop limit d + 1 and
skip bound d, the breadth-first enumeration yields exactly the level-d
nodes. -/
theorem doItLoop_bfs_exact (f : DagForest) (d : Nat) (hd : 0 < d) :
    doItLoop (d + 1) d (bfsEnum f) = levelIds f d := by
  rcases Nat.lt_or_ge d (numLevels f) with hlt | hge
  · obtain ⟨k, hk⟩ : ∃ k, numLevels f = (d + 1) + k := ⟨numLevels f - (d + 1), by omega⟩
    rw [bfsEnum, hk, List.range_add, List.flatMap_append]
    have hA : ∀ p ∈ (List.range (d + 1)).flatMap (levelEntries f), p.2 ≤ d := by
      intro p hp
      obtain ⟨a, ha, hpa⟩ := List.mem_flatMap.1 hp
      rw [levelEntries_depth hpa]
      have := List.mem_range.1 ha
      omega
    have hB : ∀ p ∈ ((List.range k).map (fun x => (d + 1) + x)).flatMap (levelEntries f),
        d + 1 ≤ p.2 := by
      intro p hp
      obtain ⟨a, ha, hpa⟩ := List.mem_flatMap.1 hp
      obtain ⟨x, _, hxe⟩ := List.mem_map.1 ha
      rw [levelEntries_depth hpa, ← hxe]
      omega
    rw [doItLoop_append (d + 1) d _ _ (fun p hp => by have := hA p hp; omega),
        doItLoop_eq_nil (d + 1) d _ (by omega) hB, List.append_nil,
        List.range_succ, List.flatMap_append, skipFilter_append,
        skipFilter_eq_nil d _ hd (by
          intro p hp
          obtain ⟨a, ha, hpa⟩ := List.mem_flatMap.1 hp
          rw [levelEntries_depth hpa]
          exact List.mem_range.1 ha),
        List.nil_append]
    have hone : ([d] : List Nat).flatMap (levelEntries f) = levelEntries f d := by
      simp
    rw [hone, levelEntries, skipFilter_const_depth d d _ (by omega)]
  · have hno : ∀ p ∈ bfsEnum f, ¬(0 < d + 1 ∧ d + 1 ≤ p.2) := by
      intro p hp
      have := mem_bfsEnum_depth_lt hp
      omega
    have h1 := doItLoop_append (d + 1) d (bfsEnum f) [] hno
    rw [List.append_nil] at h1
    rw [h1, levelIds_eq_nil f d hge,
        skipFilter_eq_nil d _ hd (fun p hp => by have := mem_bfsEnum_depth_lt hp; omega)]
    rfl

/-- C8: with the exact-depth-only restriction set to a positive d, the
walker overrides the traversal order to breadth first (the outcome does not
depend on the configured order), yields exactly the nodes at depth d - the
nodes at shallower depths are traversed through but not yielded - and the
loop halts the moment an entry beyond the derived limit d + 1 is reached. -/
theorem c8_exact_depth_yields_exactly_that_depth (s : IDag) (d : Nat)
    (hy : s.yield_only_at_depth = d) (hd : 0 < d) :
    s.doIt = levelIds s.rootTree d ∧
    ({ s with traversal_type := .kDepthFirst } : IDag).doIt =
      ({ s with traversal_type := .kBreadthFirst } : IDag).doIt ∧
    (∀ n e rest, d + 1 ≤ e → doItLoop (d + 1) d ((n, e) :: rest) = []) := by
  obtain ⟨rid, rcs, tt, mx, yd⟩ := s
  dsimp only at hy
  have hy2 : d = yd := hy.symm
  subst hy2
  have hmain : ∀ (t2 : TraversalType),
      (IDag.doIt ⟨rid, rcs, t2, mx, d⟩) = levelIds (IDag.rootTree ⟨rid, rcs, t2, mx, d⟩) d := by
    intro t2
    simp only [IDag.doIt, if_pos hd]
    exact doItLoop_bfs_exact _ d hd
  refine ⟨hmain tt, ?_, ?_⟩
  · rw [hmain .kDepthFirst, hmain .kBreadthFirst]
    rfl
  · intro n e rest he
    have hc : 0 < d + 1 ∧ d + 1 ≤ e := ⟨by omega, he⟩
    simp only [doItLoop, if_pos hc]

/-- C8 witness: on the concrete scene (root 0, children 1 and 2,
grandchildren 3 and 4) with exactDepth = 2, the walk yields exactly the
depth-2 nodes 3 and 4, traversing through depth 1 without yielding it. -/
theorem c8_exact_depth_witness : exampleWalkerExactTwo.doIt = [3, 4] := by
  have h := (c8_exact_depth_yields_exactly_that_depth exampleWalkerExactTwo 2 rfl
    (by decide)).1
  exact h.trans (by decide)

/-- C2 (amended): with the maximum-depth limit set to 1 (and the exact-depth
restriction disabled), the walker yields exactly the traversal root - the
single depth-0 node - whatever the configured traversal order: the limit is
an exclusive bound, so the depth-1 children are where traversal stops, not
what it yields. -/
theorem c2_max_depth_one_yields_root (s : IDag)
    (hmax : s.traversal_depth_max = 1) (hy : s.yield_only_at_depth = 0) :
    s.doIt = [s.root_id] := by
  obtain ⟨rid, rcs, tt, mx, yd⟩ := s
  dsimp only at hmax hy
  subst hmax
  subst hy
  cases tt with
  | kDepthFirst =>
    simp only [IDag.doIt, IDag.rootTree, if_neg (by omega : ¬(0 < 0))]
    rw [dfsEnum]
    have hnil : dfsEnum DagForest.nil 0 = [] := rfl
    rw [hnil, List.append_nil]
    have hc1 : ¬(0 < 1 ∧ 1 ≤ 0) := by omega
    have hc2 : ¬(0 < 0 ∧ (0 : Nat) < 0) := by omega
    simp only [doItLoop, if_neg hc1, if_neg hc2]
    rw [doItLoop_eq_nil 1 0 _ (by omega) (fun p hp => dfsEnum_depth_le rcs 1 p hp)]
  | kBreadthFirst =>
    simp only [IDag.doIt, IDag.rootTree, if_neg (by omega : ¬(0 < 0))]
    have hnum : numLevels (DagForest.node rid rcs .nil) = numLevels rcs + 1 := by
      simp [numLevels]
    rw [bfsEnum, hnum, List.range_succ_eq_map, List.flatMap_cons]
    have h0 : levelEntries (DagForest.node rid rcs .nil) 0 = [(rid, 0)] := rfl
    rw [h0, List.singleton_append]
    have hc1 : ¬(0 < 1 ∧ 1 ≤ 0) := by omega
    have hc2 : ¬(0 < 0 ∧ (0 : Nat) < 0) := by omega
    simp only [doItLoop, if_neg hc1, if_neg hc2]
    rw [doItLoop_eq_nil 1 0 _ (by omega) (by
      intro p hp
      obtain ⟨a, ha, hpa⟩ := List.mem_flatMap.1 hp
      obtain ⟨x, _, hxe⟩ := List.mem_map.1 ha
      rw [levelEntries_depth hpa, ← hxe]
      omega)]

/-- C2 (amended) witness: on the concrete scene with children at depth 1 and
grandchildren at depth 2, the walker with maxDepth = 1 yields exactly the
root node 0. -/
theorem c2_max_depth_one_witness : exampleWalkerMaxOne.doIt = [0] :=
  c2_max_depth_one_yields_root exampleWalkerMaxOne rfl rfl
